import Mathlib

/-!
Verification of the go-icap/icap ICAP server library against its design
specification.  The development shallowly embeds the library: byte streams
are lists of characters, the ICAP request reader (request.go, ReadRequest),
the encapsulation-manifest parser, and the response writer (response.go,
respWriter) are translated into executable Lean functions.  Collaborator
code from the Go standard library (textproto, http parsing, url parsing,
chunked coding) is modelled from its documented behaviour, as the spec
treats it as an external collaborator consumed through an interface.
-/

/-- Lowercase one ASCII character (Go strings.ToLower, ASCII fragment). -/
def charLower (c : Char) : Char :=
  if 'A' ≤ c ∧ c ≤ 'Z' then Char.ofNat (c.toNat + 32) else c

/-- Uppercase one ASCII character. -/
def charUpper (c : Char) : Char :=
  if 'a' ≤ c ∧ c ≤ 'z' then Char.ofNat (c.toNat - 32) else c

/-- Lowercase a byte string (Go strings.ToLower). -/
def lowerStr (s : List Char) : List Char := s.map charLower

/-- Carriage return / line feed pair. -/
def crlf : List Char := ['\r', '\n']

/-- Canonicalisation walk for MIME header keys: uppercase the first letter
and every letter following a dash, lowercase the rest
(collaborator model of Go textproto.CanonicalMIMEHeaderKey). -/
def canonicalRun : Bool → List Char → List Char
  | _, [] => []
  | up, c :: rest =>
    (if up then charUpper c else charLower c) :: canonicalRun (decide (c = '-')) rest

/-- Canonical MIME header key (collaborator model). -/
def canonicalKey (s : List Char) : List Char := canonicalRun true s

/-- Strict lexicographic comparison of byte strings, used by the sorted
header serialisation (Go sorts header keys before writing them). -/
def lexLt : List Char → List Char → Bool
  | [], [] => false
  | [], _ :: _ => true
  | _ :: _, [] => false
  | a :: as, b :: bs => if a = b then lexLt as bs else decide (a < b)

/-- A header map: association list from canonical key to the list of values
(collaborator model of Go textproto.MIMEHeader / http.Header). -/
structure Header where
  entries : List (List Char × List (List Char))
deriving DecidableEq, Repr, Inhabited

/-- The empty header map. -/
def Header.emptyH : Header := ⟨[]⟩

/-- Look a key up in the entry list. -/
def findEntry (k : List Char) : List (List Char × List (List Char)) → Option (List (List Char))
  | [] => none
  | e :: es => if e.1 = k then some e.2 else findEntry k es

/-- Header.Get: canonicalise the key and return the first value, or the
empty string when absent (Go textproto.MIMEHeader.Get). -/
def Header.get (h : Header) (k : List Char) : List Char :=
  match findEntry (canonicalKey k) h.entries with
  | some (v :: _) => v
  | _ => []

/-- Whether the (canonical) key is present at all (Go map membership test). -/
def Header.has (h : Header) (k : List Char) : Bool :=
  (findEntry (canonicalKey k) h.entries).isSome

/-- Replace the values of key k by the single value v. -/
def setEntry (k v : List Char) : List (List Char × List (List Char)) → List (List Char × List (List Char))
  | [] => [(k, [v])]
  | e :: es => if e.1 = k then (k, [v]) :: es else e :: setEntry k v es

/-- Header.Set (Go textproto.MIMEHeader.Set: canonicalises, replaces). -/
def Header.set (h : Header) (k v : List Char) : Header :=
  ⟨setEntry (canonicalKey k) v h.entries⟩

/-- Append one value to the values of key k (Go textproto.MIMEHeader.Add). -/
def addEntry (k v : List Char) : List (List Char × List (List Char)) → List (List Char × List (List Char))
  | [] => [(k, [v])]
  | e :: es => if e.1 = k then (e.1, e.2 ++ [v]) :: es else e :: addEntry k v es

/-- Header.Add. -/
def Header.add (h : Header) (k v : List Char) : Header :=
  ⟨addEntry (canonicalKey k) v h.entries⟩

/-- Insert an entry into a key-sorted entry list. -/
def insertSorted (x : List Char × List (List Char)) :
    List (List Char × List (List Char)) → List (List Char × List (List Char))
  | [] => [x]
  | y :: ys => if lexLt y.1 x.1 then y :: insertSorted x ys else x :: y :: ys

/-- Sort the entries by key (Go http.Header.WriteSubset sorts keys). -/
def sortEntries (es : List (List Char × List (List Char))) :
    List (List Char × List (List Char)) :=
  es.foldr insertSorted []

/-- Serialise one entry as repeated Key: value CRLF lines. -/
def entryLines (e : List Char × List (List Char)) : List Char :=
  e.2.foldl (fun a v => a ++ e.1 ++ (':' :: ' ' :: v) ++ crlf) []

/-- Header.WriteSubset: write all header lines sorted by key, skipping the
excluded keys (collaborator model of Go http.Header.WriteSubset). -/
def Header.writeSubset (h : Header) (exclude : List (List Char)) : List Char :=
  (sortEntries h.entries).foldl
    (fun acc e => if exclude.contains e.1 then acc else acc ++ entryLines e) []

/-- Header.Write: all header lines, sorted by key. -/
def Header.write (h : Header) : List Char := h.writeSubset []

/-- If pat is an initial segment of s, return the remainder. -/
def stripLead : List Char → List Char → Option (List Char)
  | [], s => some s
  | _ :: _, [] => none
  | c :: cs, d :: ds => if c = d then stripLead cs ds else none

/-- Fueled worker for splitting on a separator sequence. -/
def splitSeqF (sep : List Char) : Nat → List Char → List Char → List (List Char)
  | 0, s, acc => [acc.reverse ++ s]
  | fuel + 1, s, acc =>
    match s with
    | [] => [acc.reverse]
    | c :: rest =>
      match stripLead sep (c :: rest) with
      | some r => acc.reverse :: splitSeqF sep fuel r []
      | none => splitSeqF sep fuel rest (c :: acc)

/-- Go strings.Split with a non-empty separator: split around each
left-to-right non-overlapping instance of sep. -/
def splitSeq (sep s : List Char) : List (List Char) := splitSeqF sep s.length s []

/-- Index of the first occurrence of a character (Go strings.Index for a
one-character pattern), as an Option instead of -1. -/
def idxOf (c : Char) : List Char → Option Nat
  | [] => none
  | d :: ds => if d = c then some 0 else (idxOf c ds).map (· + 1)

/-- Index of the first occurrence of a substring. -/
def findSub (pat : List Char) : List Char → Option Nat
  | [] => if pat = [] then some 0 else none
  | c :: rest =>
    if (stripLead pat (c :: rest)).isSome then some 0
    else (findSub pat rest).map (· + 1)

/-- Decimal digit value. -/
def digitVal (c : Char) : Option Nat :=
  if '0' ≤ c ∧ c ≤ '9' then some (c.toNat - 48) else none

/-- Accumulate decimal digits; fails on any non-digit. -/
def digitsAux : List Char → Nat → Option Nat
  | [], acc => some acc
  | c :: cs, acc =>
    match digitVal c with
    | some d => digitsAux cs (acc * 10 + d)
    | none => none

/-- Parse a non-empty all-digit string. -/
def parseDigits : List Char → Option Nat
  | [] => none
  | c :: cs => digitsAux (c :: cs) 0

/-- Go strconv.Atoi: optional sign followed by decimal digits. -/
def atoi : List Char → Option Int
  | '+' :: rest => (parseDigits rest).map Int.ofNat
  | '-' :: rest => (parseDigits rest).map (fun n => -(Int.ofNat n))
  | s => (parseDigits s).map Int.ofNat

/-- Hexadecimal digit value. -/
def hexVal (c : Char) : Option Nat :=
  if '0' ≤ c ∧ c ≤ '9' then some (c.toNat - 48)
  else if 'a' ≤ c ∧ c ≤ 'f' then some (c.toNat - 87)
  else if 'A' ≤ c ∧ c ≤ 'F' then some (c.toNat - 55)
  else none

/-- Accumulate hexadecimal digits; fails on any other character. -/
def hexAux : List Char → Nat → Option Nat
  | [], acc => some acc
  | c :: cs, acc =>
    match hexVal c with
    | some d => hexAux cs (acc * 16 + d)
    | none => none

/-- Parse a non-empty hexadecimal string (Go strconv parsing of a chunk
size line). -/
def parseHex : List Char → Option Nat
  | [] => none
  | c :: cs => hexAux (c :: cs) 0

/-- One lowercase hexadecimal digit. -/
def hexDigitChar (n : Nat) : Char :=
  if n < 10 then Char.ofNat (48 + n) else Char.ofNat (87 + n)

/-- Fueled hexadecimal rendering worker. -/
def natToHexF : Nat → Nat → List Char → List Char
  | 0, _, acc => acc
  | fuel + 1, n, acc =>
    if n = 0 then acc else natToHexF fuel (n / 16) (hexDigitChar (n % 16) :: acc)

/-- Lowercase hexadecimal rendering of a natural number (Go fmt %x). -/
def natToHex (n : Nat) : List Char :=
  if n = 0 then ['0'] else natToHexF (n + 1) n []

/-- One decimal digit. -/
def decDigitChar (n : Nat) : Char := Char.ofNat (48 + n)

/-- Fueled decimal rendering worker. -/
def natToDecF : Nat → Nat → List Char → List Char
  | 0, _, acc => acc
  | fuel + 1, n, acc =>
    if n = 0 then acc else natToDecF fuel (n / 10) (decDigitChar (n % 10) :: acc)

/-- Decimal rendering of a natural number (Go fmt %d). -/
def natToDec (n : Nat) : List Char :=
  if n = 0 then ['0'] else natToDecF (n + 1) n []

/-- Decimal rendering of an integer. -/
def intToDec (i : Int) : List Char :=
  if i < 0 then '-' :: natToDec (-i).toNat else natToDec i.toNat

/-- Split a stream at the first line feed; the second component is none
when no line feed exists. -/
def splitAtNl : List Char → (List Char × Option (List Char))
  | [] => ([], none)
  | '\n' :: rest => ([], some rest)
  | c :: rest =>
    let p := splitAtNl rest
    (c :: p.1, p.2)

/-- Drop one trailing carriage return. -/
def dropLastCr : List Char → List Char
  | [] => []
  | ['\r'] => []
  | c :: rest => c :: dropLastCr rest

/-- Read one line, stripping the terminating CRLF or LF; none on empty
input, which Go textproto reports as EOF (collaborator model of
textproto.Reader.ReadLine: a final unterminated line is still returned). -/
def readLine : List Char → Option (List Char × List Char)
  | [] => none
  | c :: rest =>
    let p := splitAtNl (c :: rest)
    match p.2 with
    | some r => some (dropLastCr p.1, r)
    | none => some (c :: rest, [])

/-- Drop leading spaces and horizontal tabs of a header value. -/
def dropLeadingSpace : List Char → List Char
  | ' ' :: rest => dropLeadingSpace rest
  | '\t' :: rest => dropLeadingSpace rest
  | s => s

/-- Fueled MIME-header reader: Key: value lines up to a blank line
(collaborator model of Go textproto.Reader.ReadMIMEHeader); returns the
header and the stream positioned after the blank line. -/
def readMIMEHeaderF : Nat → List Char → Header → Option (Header × List Char)
  | 0, _, _ => none
  | fuel + 1, s, h =>
    match readLine s with
    | none => none
    | some (line, rest) =>
      if line = [] then some (h, rest)
      else
        match idxOf ':' line with
        | none => none
        | some i =>
          readMIMEHeaderF fuel rest
            (h.add (line.take i) (dropLeadingSpace (line.drop (i + 1))))

/-- Read the MIME headers of a stream. -/
def readMIMEHeader (s : List Char) : Option (Header × List Char) :=
  readMIMEHeaderF (s.length + 1) s Header.emptyH

/-- Go strings.SplitN(s, " ", 3) restricted to the success case of three
fields: split at the first two spaces. -/
def splitN3 (s : List Char) : Option (List Char × List Char × List Char) :=
  match idxOf ' ' s with
  | none => none
  | some i =>
    let t := s.drop (i + 1)
    match idxOf ' ' t with
    | none => none
    | some j => some (s.take i, t.take j, t.drop (j + 1))

/-- Split a path-and-query string at the first question mark. -/
def splitAtQ (s : List Char) : List Char × List Char :=
  match idxOf '?' s with
  | none => (s, [])
  | some i => (s.take i, s.drop (i + 1))

/-- A parsed URL (collaborator model of the Go url package as used here:
scheme, host, path and raw query). -/
structure URL where
  scheme : List Char
  host : List Char
  path : List Char
  rawQuery : List Char
deriving DecidableEq, Repr, Inhabited

/-- Collaborator model of Go http.ParseRequestURL / url.Parse for the
shapes this library uses: absolute scheme://host/path?query URLs and
relative /path?query request URIs; fails on the empty string. -/
def parseRequestURL (s : List Char) : Option URL :=
  if s = [] then none
  else
    match findSub [':', '/', '/'] s with
    | some i =>
      let rest := s.drop (i + 3)
      let host := rest.takeWhile (fun c => c != '/')
      let pq := splitAtQ (rest.dropWhile (fun c => c != '/'))
      some ⟨s.take i, host, pq.1, pq.2⟩
    | none =>
      let pq := splitAtQ s
      some ⟨[], [], pq.1, pq.2⟩

/-- Render a URL back to a string (collaborator model of url.URL.String
for the shapes this library produces). -/
def URL.str (u : URL) : List Char :=
  (if u.scheme = [] then [] else u.scheme ++ [':', '/', '/'] ++ u.host)
    ++ u.path ++ (if u.rawQuery = [] then [] else '?' :: u.rawQuery)

/-- Kind of body reader attached to an embedded HTTP message: either the
chunked-decoding reader over the remaining connection stream, or the
emptyReader that immediately yields end-of-stream (request.go). -/
inductive BodyKind
  | stream
  | empty
deriving DecidableEq, Repr, Inhabited

/-- An embedded HTTP request (the fields of Go http.Request that this
library reads or writes). -/
structure HttpRequest where
  method : List Char
  rawURL : List Char
  url : Option URL
  proto : List Char
  header : Header
  host : List Char
  body : BodyKind
deriving DecidableEq, Repr, Inhabited

/-- An embedded HTTP response (the fields of Go http.Response that this
library reads or writes). -/
structure HttpResponse where
  status : List Char
  statusCode : Int
  proto : List Char
  header : Header
  body : BodyKind
deriving DecidableEq, Repr, Inhabited

/-- The Host header name. -/
def hostName : List Char := ['H', 'o', 's', 't']

/-- Collaborator model of Go http.ReadRequest on a header-only buffer:
request line, headers, host taken from the URL and falling back to the
Host header.  The body is attached by the caller. -/
def parseHttpRequest (bs : List Char) : Option HttpRequest := do
  let (line, r1) ← readLine bs
  let (m, ru, pr) ← splitN3 line
  let u ← parseRequestURL ru
  let (hdr, _) ← readMIMEHeader r1
  let host := if u.host = [] then hdr.get hostName else u.host
  some { method := m, rawURL := ru, url := some u, proto := pr,
         header := hdr, host := host, body := BodyKind.empty }

/-- Collaborator model of Go http.ReadResponse on a header-only buffer:
status line and headers.  The body is attached by the caller. -/
def parseHttpResponse (bs : List Char) : Option HttpResponse := do
  let (line, r1) ← readLine bs
  let (pr, codeS, text) ← splitN3 line
  let code ← atoi codeS
  let (hdr, _) ← readMIMEHeader r1
  some { status := codeS ++ (' ' :: text), statusCode := code, proto := pr,
         header := hdr, body := BodyKind.empty }

/-- Fueled chunked-transfer-coding decoder: hex size line, data, CRLF,
repeated until the zero-size chunk (collaborator model of Go
http.NewChunkedReader as drained by ioutil.ReadAll). -/
def chunkedDecodeF : Nat → List Char → List Char → Option (List Char)
  | 0, _, _ => none
  | fuel + 1, s, acc =>
    match readLine s with
    | none => none
    | some (line, rest) =>
      match parseHex line with
      | none => none
      | some 0 => some acc
      | some (n + 1) =>
        if rest.length < n + 1 then none
        else
          match stripLead crlf (rest.drop (n + 1)) with
          | none => none
          | some r2 => chunkedDecodeF fuel r2 (acc ++ rest.take (n + 1))

/-- Fully drain a chunked body from a stream. -/
def chunkedReadAll (s : List Char) : Option (List Char) :=
  chunkedDecodeF (s.length + 1) s []

/-- ioutil.ReadAll of an embedded message body: the chunked reader drains
the stream, the emptyReader yields nothing. -/
def readAllBody (kind : BodyKind) (s : List Char) : Option (List Char) :=
  match kind with
  | BodyKind.stream => chunkedReadAll s
  | BodyKind.empty => some []

/-- One chunk as emitted by Go http.NewChunkedWriter.Write: lowercase hex
size line, data, CRLF; a zero-length write emits nothing. -/
def encodeChunk (p : List Char) : List Char :=
  if p = [] then [] else natToHex p.length ++ crlf ++ p ++ crlf

/-- The errors ReadRequest can report (request.go). -/
inductive Err
  | unexpectedEOF
  | malformedRequest
  | badURL
  | badHeader
  | missingEncapsulated
  | malformedEncapsulated
  | sectionNotLast
  | invalidEncapKey
  | shortRead
  | httpRequestParse
  | httpResponseParse
deriving DecidableEq, Repr, Inhabited

/-- The req-hdr key. -/
def reqHdrKey : List Char := ['r', 'e', 'q', '-', 'h', 'd', 'r']

/-- The res-hdr key. -/
def resHdrKey : List Char := ['r', 'e', 's', '-', 'h', 'd', 'r']

/-- The req-body key. -/
def reqBodyKey : List Char := ['r', 'e', 'q', '-', 'b', 'o', 'd', 'y']

/-- The res-body key. -/
def resBodyKey : List Char := ['r', 'e', 's', '-', 'b', 'o', 'd', 'y']

/-- The opt-body key. -/
def optBodyKey : List Char := ['o', 'p', 't', '-', 'b', 'o', 'd', 'y']

/-- The null-body key. -/
def nullBodyKey : List Char := ['n', 'u', 'l', 'l', '-', 'b', 'o', 'd', 'y']

/-- The body markers that must terminate the manifest (the case list of
the prevKey switch in request.go). -/
def isBodyMarker (k : List Char) : Bool :=
  decide (k = reqBodyKey ∨ k = optBodyKey ∨ k = resBodyKey ∨ k = nullBodyKey)

/-- The loop state of the Encapsulated: parser in request.go. -/
structure EncapState where
  initialOffset : Int
  reqHdrLen : Int
  respHdrLen : Int
  hasBody : Bool
  prevKey : List Char
  prevValue : Int
deriving DecidableEq, Repr, Inhabited

/-- The manifest-parsing loop of ReadRequest (request.go, the for-range
over the comma-space separated entries): each entry is key=value with a
decimal value; the length of a header section is derived from the offset
difference; body markers must be last; unknown keys are rejected. -/
def encapLoop : List (List Char) → EncapState → Except Err EncapState
  | [], st => Except.ok st
  | item :: rest, st =>
    match idxOf '=' item with
    | none => Except.error Err.malformedEncapsulated
    | some eq =>
      match atoi (item.drop (eq + 1)) with
      | none => Except.error Err.malformedEncapsulated
      | some value =>
        let key := item.take eq
        let st1 : EncapState :=
          if st.prevKey = [] then { st with initialOffset := value }
          else if st.prevKey = reqHdrKey then { st with reqHdrLen := value - st.prevValue }
          else if st.prevKey = resHdrKey then { st with respHdrLen := value - st.prevValue }
          else st
        if isBodyMarker st.prevKey = true then Except.error Err.sectionNotLast
        else if key = reqHdrKey ∨ key = resHdrKey ∨ key = nullBodyKey then
          encapLoop rest { st1 with prevKey := key, prevValue := value }
        else if key = reqBodyKey ∨ key = resBodyKey ∨ key = optBodyKey then
          encapLoop rest { st1 with hasBody := true, prevKey := key, prevValue := value }
        else Except.error Err.invalidEncapKey

/-- The comma-space separator of the Encapsulated: header. -/
def commaSpace : List Char := [',', ' ']

/-- Parse an Encapsulated: header value (the manifest section of
ReadRequest in request.go). -/
def parseEncapsulated (s : List Char) : Except Err EncapState :=
  encapLoop (splitSeq commaSpace s) ⟨0, 0, 0, false, [], 0⟩

/-- Whether the successfully parsed manifest set hasBody. -/
def encapHasBody (s : List Char) : Bool :=
  match parseEncapsulated s with
  | Except.ok info => info.hasBody
  | Except.error _ => false

/-- The Encapsulated header name. -/
def encapName : List Char :=
  ['E', 'n', 'c', 'a', 'p', 's', 'u', 'l', 'a', 't', 'e', 'd']

/-- A parsed ICAP request (request.go, struct Request). -/
structure Request where
  method : List Char
  rawURL : List Char
  url : URL
  proto : List Char
  header : Header
  remoteAddr : List Char
  request : Option HttpRequest
  response : Option HttpResponse
deriving DecidableEq, Repr, Inhabited

/-- io.ReadFull: read exactly n bytes or fail. -/
def takeExact (n : Nat) (s : List Char) : Option (List Char × List Char) :=
  if s.length < n then none else some (s.take n, s.drop n)

/-- Read one section of the encapsulation region: when the computed length
is positive, exactly that many bytes must be available (request.go reads
with io.ReadFull only when the length is positive; otherwise the raw
buffer stays nil). -/
def readSection (len : Int) (s : List Char) : Option (Option (List Char) × List Char) :=
  if len > 0 then (takeExact len.toNat s).map (fun p => (some p.1, p.2))
  else some (none, s)

/-- The ICAP method REQMOD. -/
def reqmodStr : List Char := ['R', 'E', 'Q', 'M', 'O', 'D']

/-- The ICAP method RESPMOD. -/
def respmodStr : List Char := ['R', 'E', 'S', 'P', 'M', 'O', 'D']

/-- ReadRequest (request.go): read the request line, the ICAP headers and
the Encapsulated manifest; skip the initial offset; slice the embedded
HTTP header blocks; parse them; attach a chunked body reader to the
embedded request exactly when the manifest set hasBody and the method is
REQMOD, and to the embedded response exactly when hasBody and RESPMOD;
every other embedded message gets the empty reader.  Returns the request
and the unread remainder of the stream (the lazy body bytes). -/
def ReadRequest (input : List Char) : Except Err (Request × List Char) :=
  match readLine input with
  | none => Except.error Err.unexpectedEOF
  | some (firstLine, r1) =>
    match splitN3 firstLine with
    | none => Except.error Err.malformedRequest
    | some (method, rawURL, proto) =>
      match parseRequestURL rawURL with
      | none => Except.error Err.badURL
      | some url =>
        match readMIMEHeader r1 with
        | none => Except.error Err.badHeader
        | some (header, r2) =>
          if header.get encapName = [] then Except.error Err.missingEncapsulated
          else
            match parseEncapsulated (header.get encapName) with
            | Except.error e => Except.error e
            | Except.ok info =>
              match (if info.initialOffset > 0
                     then takeExact info.initialOffset.toNat r2
                     else some ([], r2)) with
              | none => Except.error Err.shortRead
              | some (_, r3) =>
                match readSection info.reqHdrLen r3 with
                | none => Except.error Err.shortRead
                | some (rawReqHdr, r4) =>
                  match readSection info.respHdrLen r4 with
                  | none => Except.error Err.shortRead
                  | some (rawRespHdr, r5) =>
                    match (match rawReqHdr with
                           | none => Except.ok none
                           | some bs =>
                             match parseHttpRequest bs with
                             | none => Except.error Err.httpRequestParse
                             | some h =>
                               Except.ok (some { h with
                                 body := if info.hasBody = true ∧ method = reqmodStr
                                         then BodyKind.stream else BodyKind.empty })) with
                    | Except.error e => Except.error e
                    | Except.ok embReq =>
                      match (match rawRespHdr with
                             | none => Except.ok none
                             | some bs =>
                               match parseHttpResponse bs with
                               | none => Except.error Err.httpResponseParse
                               | some h =>
                                 Except.ok (some { h with
                                   body := if info.hasBody = true ∧ method = respmodStr
                                           then BodyKind.stream else BodyKind.empty })) with
                      | Except.error e => Except.error e
                      | Except.ok embResp =>
                        Except.ok ({ method := method, rawURL := rawURL, url := url,
                                     proto := proto, header := header, remoteAddr := [],
                                     request := embReq, response := embResp }, r5)

/-- The value passed as httpMessage to WriteHeader (a Go interface value):
an embedded HTTP request, an embedded HTTP response, nil, or a value of
any other type (the type switch in response.go has no default case). -/
inductive HttpMessage
  | noMsg : HttpMessage
  | reqMsg : HttpRequest → HttpMessage
  | respMsg : HttpResponse → HttpMessage
  | otherMsg : HttpMessage
deriving DecidableEq, Repr, Inhabited

/-- Modelled from the spec: the status table lives in status.go, which is
not under src/ (only its test is); section 4.1 and scenario S4 list the
RFC 3507 codes and their reason phrases, with the empty string for
unknown codes. -/
def StatusText (code : Int) : List Char :=
  (match code with
   | 100 => "Continue"
   | 101 => "Switching Protocols"
   | 200 => "OK"
   | 201 => "Created"
   | 204 => "No Content"
   | 400 => "Bad Request"
   | 401 => "Unauthorized"
   | 403 => "Forbidden"
   | 404 => "Not Found"
   | 405 => "Method Not Allowed"
   | 408 => "Request Timeout"
   | 500 => "Server Error"
   | 501 => "Method Not Implemented"
   | 502 => "Bad Gateway"
   | 503 => "Service Overloaded"
   | 505 => "ICAP Version Not Supported"
   | _ => "").toList

/-- Collaborator model of Go http.StatusText, restricted to the codes the
library can meet on the response-serialisation path. -/
def httpStatusText (code : Int) : List Char :=
  (match code with
   | 200 => "OK"
   | 204 => "No Content"
   | 301 => "Moved Permanently"
   | 302 => "Found"
   | 400 => "Bad Request"
   | 403 => "Forbidden"
   | 404 => "Not Found"
   | 500 => "Internal Server Error"
   | _ => "").toList

/-- The Transfer-Encoding header name. -/
def transferEncodingName : List Char :=
  ['T', 'r', 'a', 'n', 's', 'f', 'e', 'r', '-', 'E', 'n', 'c', 'o', 'd', 'i', 'n', 'g']

/-- The Content-Length header name. -/
def contentLengthName : List Char :=
  ['C', 'o', 'n', 't', 'e', 'n', 't', '-', 'L', 'e', 'n', 'g', 't', 'h']

/-- The Date header name. -/
def dateName : List Char := ['D', 'a', 't', 'e']

/-- The Connection header name. -/
def connectionName : List Char :=
  ['C', 'o', 'n', 'n', 'e', 'c', 't', 'i', 'o', 'n']

/-- Return value if nonempty, def otherwise (response.go). -/
def valueOrDefault (value dflt : List Char) : List Char :=
  if value = [] then dflt else value

/-- The first step of httpRequestHeader (response.go): use the parsed URL,
or reconstruct it from the raw URL, mutating the request; fail when the
raw URL does not parse. -/
def resolveURL (req : HttpRequest) : Option (URL × HttpRequest) :=
  match req.url with
  | some u => some (u, req)
  | none =>
    match parseRequestURL req.rawURL with
    | some u => some (u, { req with url := some u })
    | none => none

/-- httpRequestHeader (response.go): serialise the header block of an
embedded HTTP request (request line plus headers minus Transfer-Encoding
and Content-Length); sets the Host header from the URL host falling back
to the host field, mutating the request, and returns the mutated request
along with the bytes. -/
def httpRequestHeader (req : HttpRequest) : Option (List Char × HttpRequest) :=
  match resolveURL req with
  | none => none
  | some (u, req1) =>
    let host := if u.host = [] then req1.host else u.host
    let req2 : HttpRequest := { req1 with header := req1.header.set hostName host }
    let line := valueOrDefault req2.method ['G', 'E', 'T'] ++ [' '] ++ u.str ++ [' ']
      ++ valueOrDefault req2.proto "HTTP/1.1".toList ++ crlf
    some (line ++ req2.header.writeSubset [transferEncodingName, contentLengthName] ++ crlf,
          req2)

/-- httpResponseHeader (response.go): serialise the header block of an
embedded HTTP response; the status text defaults from the status field to
the standard phrase to a synthetic one, the protocol defaults to
HTTP/1.1. -/
def httpResponseHeader (resp : HttpResponse) : List Char :=
  let text :=
    if resp.status = [] then
      (let t := httpStatusText resp.statusCode
       if t = [] then "status code ".toList ++ intToDec resp.statusCode else t)
    else resp.status
  valueOrDefault resp.proto "HTTP/1.1".toList ++ [' '] ++ intToDec resp.statusCode
    ++ [' '] ++ text ++ crlf
    ++ resp.header.writeSubset [transferEncodingName, contentLengthName] ++ crlf

/-- The state of a respWriter (response.go): the request being answered,
the accumulated ICAP header, the wroteHeader latch, whether the chunked
writer is installed, the bytes written to the connection so far, and the
formatted current time used to default the Date header. -/
structure RespWriter where
  req : Request
  header : Header
  wroteHeader : Bool
  hasChunkWriter : Bool
  out : List Char
  now : List Char
deriving DecidableEq, Repr, Inhabited

/-- WriteHeader (response.go): on the first call, serialise the embedded
HTTP message (if any), compute the Encapsulated manifest, default Date,
set Connection: close, emit the ICAP status line, the sorted ICAP
headers, a blank line and the embedded header block, latch wroteHeader
and install the chunked writer when hasBody.  A second call is logged and
ignored.  The second component of the result is the caller's httpMessage
after the call (Go mutates the embedded request through its pointer). -/
def writeHeader (w : RespWriter) (code : Int) (httpMessage : HttpMessage)
    (hasBody : Bool) : RespWriter × HttpMessage :=
  if w.wroteHeader = true then (w, httpMessage)
  else
    let serialized : Option (List Char) × HttpMessage × List Char :=
      match httpMessage with
      | HttpMessage.reqMsg msg =>
        match httpRequestHeader msg with
        | none => (none, HttpMessage.reqMsg msg, [])
        | some (hdr, msg1) =>
          (some hdr, HttpMessage.reqMsg msg1,
           (if hasBody then "req-hdr=0, req-body=".toList
            else "req-hdr=0, null-body=".toList) ++ natToDec hdr.length)
      | HttpMessage.respMsg msg =>
        let hdr := httpResponseHeader msg
        (some hdr, HttpMessage.respMsg msg,
         (if hasBody then "res-hdr=0, res-body=".toList
          else "res-hdr=0, null-body=".toList) ++ natToDec hdr.length)
      | m => (none, m, [])
    let encap :=
      if serialized.2.2 = [] then
        if hasBody then
          lowerStr (if w.req.method.length > 3 then w.req.method.take 3 else w.req.method)
            ++ "-body=0".toList
        else "null-body=0".toList
      else serialized.2.2
    let h1 := w.header.set encapName encap
    let h2 := if h1.has dateName = true then h1 else h1.set dateName w.now
    let h3 := h2.set connectionName "close".toList
    let status :=
      (let t := StatusText code
       if t = [] then "status code ".toList ++ intToDec code else t)
    let statusLine := "ICAP/1.0 ".toList ++ intToDec code ++ [' '] ++ status ++ crlf
    let bodyHdr := match serialized.1 with | some b => b | none => []
    ({ w with
        header := h3,
        wroteHeader := true,
        hasChunkWriter := if hasBody then true else w.hasChunkWriter,
        out := w.out ++ statusLine ++ h3.write ++ crlf ++ bodyHdr }, serialized.2.1)

/-- Write (response.go): commit with (200, nil, true) when not yet
committed; error (returning 0 and writing nothing) when no chunked writer
is installed; otherwise append one chunk.  The Bool is the error flag. -/
def respWrite (w : RespWriter) (p : List Char) : RespWriter × Nat × Bool :=
  let w1 := if w.wroteHeader = true then w else (writeHeader w 200 HttpMessage.noMsg true).1
  if w1.hasChunkWriter = true then
    ({ w1 with out := w1.out ++ encodeChunk p }, p.length, false)
  else (w1, 0, true)

/-- Closing the chunked writer (Go http.NewChunkedWriter.Close) writes the
terminating zero chunk. -/
def closeChunk (w : RespWriter) : RespWriter :=
  { w with out := w.out ++ ('0' :: crlf) }

/-- The REQMOD headers-only request of RFC 3507 section 4.8.1, the literal
input of TestParserREQMOD. -/
def s1Input : String :=
  "REQMOD icap://icap-server.net/server?arg=87 ICAP/1.0\r\n" ++
  "Host: icap-server.net\r\n" ++
  "Encapsulated: req-hdr=0, null-body=170\r\n\r\n" ++
  "GET / HTTP/1.1\r\n" ++
  "Host: www.origin-server.com\r\n" ++
  "Accept: text/html, text/plain\r\n" ++
  "Accept-Encoding: compress\r\n" ++
  "Cookie: ff39fk3jur@4ii0e02i\r\n" ++
  "If-None-Match: \"xyzzy\", \"r2d2xxxx\"\r\n\r\n"

/-- The RESPMOD-with-body request of RFC 3507 section 4.8.2, the literal
input of TestParserRESPMOD. -/
def s2Input : String :=
  "RESPMOD icap://icap.example.org/satisf ICAP/1.0\r\n" ++
  "Host: icap.example.org\r\n" ++
  "Encapsulated: req-hdr=0, res-hdr=137, res-body=296\r\n\r\n" ++
  "GET /origin-resource HTTP/1.1\r\n" ++
  "Host: www.origin-server.com\r\n" ++
  "Accept: text/html, text/plain, image/gif\r\n" ++
  "Accept-Encoding: gzip, compress\r\n\r\n" ++
  "HTTP/1.1 200 OK\r\n" ++
  "Date: Mon, 10 Jan 2000 09:52:22 GMT\r\n" ++
  "Server: Apache/1.3.6 (Unix)\r\n" ++
  "ETag: \"63840-1ab7-378d415b\"\r\n" ++
  "Content-Type: text/html\r\n" ++
  "Content-Length: 51\r\n\r\n" ++
  "33\r\n" ++
  "This is data that was returned by an origin server.\r\n" ++
  "0\r\n\r\n"

/-- The request accepted by ReadRequest, with a default value on the error
path (used only to state concrete facts about accepted inputs). -/
def reqOf (input : List Char) : Request :=
  match ReadRequest input with
  | Except.ok p => p.1
  | Except.error _ => default

/-- The unread remainder of the stream after ReadRequest. -/
def restOf (input : List Char) : List Char :=
  match ReadRequest input with
  | Except.ok p => p.2
  | Except.error _ => []

/-- The embedded HTTP request of an accepted input, defaulted when absent. -/
def embReqOf (input : List Char) : HttpRequest :=
  match (reqOf input).request with
  | some er => er
  | none => default

/-- Whether ReadRequest accepted the input. -/
def isOkE (e : Except Err (Request × List Char)) : Bool :=
  match e with
  | Except.ok _ => true
  | Except.error _ => false

/-- The REQMOD request of RFC 3507 section 4.3.2, the literal input of
TestREQMOD2. -/
def reqmod2Input : String :=
  "REQMOD icap://icap-server.net/server?arg=87 ICAP/1.0\r\n" ++
  "Host: icap-server.net\r\n" ++
  "Encapsulated: req-hdr=0, req-body=154\r\n" ++
  "\r\n" ++
  "POST /origin-resource/form.pl HTTP/1.1\r\n" ++
  "Host: www.origin-server.com\r\n" ++
  "Accept: text/html, text/plain\r\n" ++
  "Accept-Encoding: compress\r\n" ++
  "Cache-Control: no-cache\r\n" ++
  "\r\n" ++
  "1e\r\n" ++
  "I am posting this information.\r\n" ++
  "0\r\n"

/-- The example response of RFC 3507 section 4.3.2, the bytes TestREQMOD2
expects on the wire. -/
def reqmod2Expected : String :=
  "ICAP/1.0 200 OK\r\n" ++
  "Connection: close\r\n" ++
  "Date: Mon, 10 Jan 2000  09:55:21 GMT\r\n" ++
  "Encapsulated: req-hdr=0, req-body=231\r\n" ++
  "Istag: \"W3E4R7U9-L2E4-2\"\r\n" ++
  "Server: ICAP-Server-Software/1.0\r\n" ++
  "\r\n" ++
  "POST /origin-resource/form.pl HTTP/1.1\r\n" ++
  "Accept: text/html, text/plain, image/gif\r\n" ++
  "Accept-Encoding: gzip, compress\r\n" ++
  "Cache-Control: no-cache\r\n" ++
  "Host: www.origin-server.com\r\n" ++
  "Via: 1.0 icap-server.net (ICAP Example ReqMod Service 1.1)\r\n" ++
  "\r\n" ++
  "2d\r\n" ++
  "I am posting this information.  ICAP powered!\r\n" ++
  "0\r\n"

/-- The handler steps of TestREQMOD2 run against the model: parse the
request, set the ICAP headers Date, Server and ISTag, inject Via and
update Accept and Accept-Encoding on the embedded request, drain the
body, append the ICAP-powered suffix, commit with
(200, embedded request, hasBody true), write the new body and close the
chunked writer; the result is everything written to the connection. -/
def reqmod2Output : Option (List Char) :=
  match ReadRequest reqmod2Input.toList with
  | Except.error _ => none
  | Except.ok (req, rest) =>
    match req.request with
    | none => none
    | some er =>
      let w0 : RespWriter :=
        { req := req, header := Header.emptyH, wroteHeader := false,
          hasChunkWriter := false, out := [], now := [] }
      let icapHdr :=
        ((w0.header.set dateName "Mon, 10 Jan 2000  09:55:21 GMT".toList).set
          "Server".toList "ICAP-Server-Software/1.0".toList).set
          "ISTag".toList "\"W3E4R7U9-L2E4-2\"".toList
      let w1 : RespWriter := { w0 with header := icapHdr }
      let embHdr :=
        ((er.header.set "Via".toList
            "1.0 icap-server.net (ICAP Example ReqMod Service 1.1)".toList).set
          "Accept".toList "text/html, text/plain, image/gif".toList).set
          "Accept-Encoding".toList "gzip, compress".toList
      let er1 : HttpRequest := { er with header := embHdr }
      match readAllBody er1.body rest with
      | none => none
      | some body =>
        let newBody := body ++ "  ICAP powered!".toList
        let w2 := (writeHeader w1 200 (HttpMessage.reqMsg er1) true).1
        let w3 := (respWrite w2 newBody).1
        some (closeChunk w3).out

/-- Whether the embedded request of a parsed ICAP request streams the
chunked body from the connection. -/
def requestStreams (req : Request) : Bool :=
  match req.request with
  | some er => decide (er.body = BodyKind.stream)
  | none => false

/-- Whether the embedded response of a parsed ICAP request streams the
chunked body from the connection. -/
def responseStreams (req : Request) : Bool :=
  match req.response with
  | some es => decide (es.body = BodyKind.stream)
  | none => false

/-- The six keys admitted in an Encapsulated: manifest. -/
def validEncapKey (k : List Char) : Bool :=
  decide (k = reqHdrKey ∨ k = resHdrKey ∨ k = nullBodyKey ∨
          k = reqBodyKey ∨ k = resBodyKey ∨ k = optBodyKey)

/-- Well-formedness of a list of manifest entries, stated independently of
the parser: every entry is key=value with a known key and a decimal
integer value, and a body marker terminates the list. -/
def itemsOK : List (List Char) → Bool
  | [] => true
  | item :: rest =>
    match idxOf '=' item with
    | none => false
    | some eq =>
      validEncapKey (item.take eq) && (atoi (item.drop (eq + 1))).isSome &&
        (if isBodyMarker (item.take eq) = true then decide (rest = []) else itemsOK rest)

/-- Well-formedness of an Encapsulated: header value. -/
def manifestOK (s : List Char) : Bool := itemsOK (splitSeq commaSpace s)

/-- The offsets of a manifest, in order, read off the raw header value. -/
def manifestOffsets (s : List Char) : List Int :=
  (splitSeq commaSpace s).map (fun item =>
    match idxOf '=' item with
    | some eq => (atoi (item.drop (eq + 1))).getD 0
    | none => 0)

/-- An OPTIONS request whose manifest announces an opt-body after an
embedded request header block: the body marker is present but neither
embedded message gets a streaming reader. -/
def cex3Input : String :=
  "OPTIONS icap://icap.example.net/svc ICAP/1.0\r\n" ++
  "Host: icap.example.net\r\n" ++
  "Encapsulated: req-hdr=0, opt-body=47\r\n" ++
  "\r\n" ++
  "GET / HTTP/1.1\r\n" ++
  "Host: www.origin-server.com\r\n" ++
  "\r\n"

/-- A request whose manifest offsets start at 5 and then decrease to 3:
ReadRequest accepts it, discarding five bytes and deriving a negative
req-hdr length that produces no embedded message. -/
def cex4Input : String :=
  "OPTIONS icap://icap.example.net/svc ICAP/1.0\r\n" ++
  "Host: icap.example.net\r\n" ++
  "Encapsulated: req-hdr=5, null-body=3\r\n" ++
  "\r\n" ++
  "XXXXX"
set_option maxRecDepth 100000

/-- C1: the TestREQMOD2 handler pipeline run against the model emits
exactly the RFC 3507 section 4.3.2 example response bytes. -/
theorem reqmod2_emits_rfc_example_bytes :
    reqmod2Output = some reqmod2Expected.toList := by decide

/-- C3 counterexample: an accepted OPTIONS request whose manifest contains
opt-body (so the manifest indicates a body), yet neither the embedded
request body reader nor the embedded response body reader streams. -/
theorem body_marker_without_any_stream :
    isOkE (ReadRequest cex3Input.toList) = true ∧
    encapHasBody ((reqOf cex3Input.toList).header.get encapName) = true ∧
    requestStreams (reqOf cex3Input.toList) = false ∧
    responseStreams (reqOf cex3Input.toList) = false := by
  exact ⟨rfl, rfl, rfl, rfl⟩

/-- C4 counterexample: ReadRequest accepts a manifest whose first offset
is 5 (nonzero) and whose second offset 3 is smaller than the first. -/
theorem readRequest_accepts_nonmonotonic_offsets :
    isOkE (ReadRequest cex4Input.toList) = true ∧
    (reqOf cex4Input.toList).header.get encapName = "req-hdr=5, null-body=3".toList ∧
    manifestOffsets ((reqOf cex4Input.toList).header.get encapName) = [5, 3] := by
  exact ⟨rfl, rfl, rfl⟩

/-- C4 amended: offsets are not validated; a nonzero first offset is
accepted and that many bytes are discarded from the stream, and a
decreasing offset pair is accepted with the implied negative-length
section yielding no embedded message at all. -/
theorem readRequest_skips_offset_drops_negative_section :
    ReadRequest cex4Input.toList = Except.ok (reqOf cex4Input.toList, []) ∧
    (reqOf cex4Input.toList).request = none ∧
    (reqOf cex4Input.toList).response = none := by
  exact ⟨rfl, rfl, rfl⟩
/-- Inversion of ReadRequest: every accepted request carries a non-empty
Encapsulated header whose parse succeeded, and the bodies of the embedded
messages are exactly the ones the manifest and the ICAP method dictate. -/
theorem ReadRequest_inversion (input : List Char) (req : Request) (rest : List Char)
    (h : ReadRequest input = Except.ok (req, rest)) :
    ∃ info : EncapState,
      req.header.get encapName ≠ [] ∧
      parseEncapsulated (req.header.get encapName) = Except.ok info ∧
      (∀ er, req.request = some er →
        er.body = (if info.hasBody = true ∧ req.method = reqmodStr
                   then BodyKind.stream else BodyKind.empty)) ∧
      (∀ es, req.response = some es →
        es.body = (if info.hasBody = true ∧ req.method = respmodStr
                   then BodyKind.stream else BodyKind.empty)) := by
  unfold ReadRequest at h
  split at h
  · exact Except.noConfusion h
  next firstLine r1 heq1 =>
    split at h
    · exact Except.noConfusion h
    next method rawURL proto heq2 =>
      split at h
      · exact Except.noConfusion h
      next url hequ =>
        split at h
        · exact Except.noConfusion h
        next header r2 heqh =>
          split at h
          · exact Except.noConfusion h
          next hne =>
            split at h
            · exact Except.noConfusion h
            next info heqe =>
              split at h
              · exact Except.noConfusion h
              next junk r3 heq3 =>
                split at h
                · exact Except.noConfusion h
                next rawReqHdr r4 heq4 =>
                  split at h
                  · exact Except.noConfusion h
                  next rawRespHdr r5 heq5 =>
                    split at h
                    · exact Except.noConfusion h
                    next embReq heqq =>
                      split at h
                      · exact Except.noConfusion h
                      next embResp heqr =>
                        rw [Except.ok.injEq, Prod.mk.injEq] at h
                        obtain ⟨hreq, hrest⟩ := h
                        subst hreq
                        refine ⟨info, hne, heqe, ?_, ?_⟩
                        · intro er her
                          split at heqq
                          · simp only [Except.ok.injEq] at heqq
                            rw [← heqq] at her
                            exact Option.noConfusion her
                          next bs hbs =>
                            split at heqq
                            · exact Except.noConfusion heqq
                            next h0 hh0 =>
                              simp only [Except.ok.injEq] at heqq
                              rw [← heqq] at her
                              simp only [Option.some.injEq] at her
                              rw [← her]
                        · intro es hes
                          split at heqr
                          · simp only [Except.ok.injEq] at heqr
                            rw [← heqr] at hes
                            exact Option.noConfusion hes
                          next bs hbs =>
                            split at heqr
                            · exact Except.noConfusion heqr
                            next h0 hh0 =>
                              simp only [Except.ok.injEq] at heqr
                              rw [← heqr] at hes
                              simp only [Option.some.injEq] at hes
                              rw [← hes]
/-- C2: for every accepted ICAP request, the embedded HTTP request body is
the chunked-decoding reader over the remaining stream if and only if the
manifest set hasBody and the method is exactly REQMOD (otherwise it is
the empty reader), and the embedded HTTP response body streams if and
only if hasBody and the method is exactly RESPMOD. -/
theorem readRequest_body_attachment (input : List Char) (req : Request) (rest : List Char)
    (h : ReadRequest input = Except.ok (req, rest)) :
    (∀ er, req.request = some er →
      (er.body = BodyKind.stream ↔
        encapHasBody (req.header.get encapName) = true ∧ req.method = reqmodStr)) ∧
    (∀ es, req.response = some es →
      (es.body = BodyKind.stream ↔
        encapHasBody (req.header.get encapName) = true ∧ req.method = respmodStr)) := by
  obtain ⟨info, hne, hparse, hreq, hresp⟩ := ReadRequest_inversion input req rest h
  have hb : encapHasBody (req.header.get encapName) = info.hasBody := by
    unfold encapHasBody
    rw [hparse]
  constructor
  · intro er her
    rw [hreq er her, hb]
    split
    next hc => simp [hc.1, hc.2]
    next hc => simp only [iff_false_intro hc]; simp
  · intro es hes
    rw [hresp es hes, hb]
    split
    next hc => simp [hc.1, hc.2]
    next hc => simp only [iff_false_intro hc]; simp

/-- C2 witness: the section 4.8.1 REQMOD request has an embedded request
whose body reader is empty, matching a manifest with null-body. -/
theorem readRequest_body_attachment_witness :
    (embReqOf s1Input.toList).body = BodyKind.stream ↔
      encapHasBody ((reqOf s1Input.toList).header.get encapName) = true ∧
        (reqOf s1Input.toList).method = reqmodStr :=
  (readRequest_body_attachment s1Input.toList (reqOf s1Input.toList)
    (restOf s1Input.toList) rfl).1 (embReqOf s1Input.toList) rfl

/-- C3 amended: for every accepted ICAP request, at most one embedded body
reader streams the encapsulated body: the embedded request reader only
when the manifest set hasBody and the method is REQMOD, the embedded
response reader only when hasBody and RESPMOD; every other present
reader yields immediate end-of-stream. -/
theorem readRequest_at_most_one_stream (input : List Char) (req : Request) (rest : List Char)
    (h : ReadRequest input = Except.ok (req, rest)) :
    (¬(requestStreams req = true ∧ responseStreams req = true)) ∧
    (requestStreams req = true →
      encapHasBody (req.header.get encapName) = true ∧ req.method = reqmodStr) ∧
    (responseStreams req = true →
      encapHasBody (req.header.get encapName) = true ∧ req.method = respmodStr) := by
  obtain ⟨info, hne, hparse, hreq, hresp⟩ := ReadRequest_inversion input req rest h
  have hb : encapHasBody (req.header.get encapName) = info.hasBody := by
    unfold encapHasBody
    rw [hparse]
  have hq : requestStreams req = true →
      encapHasBody (req.header.get encapName) = true ∧ req.method = reqmodStr := by
    intro hstream
    unfold requestStreams at hstream
    split at hstream
    next er her =>
      have hbody := hreq er her
      rw [of_decide_eq_true hstream] at hbody
      rw [hb]
      by_contra hc
      rw [if_neg ?_] at hbody
      · exact BodyKind.noConfusion hbody
      · exact fun hand => hc ⟨hand.1, hand.2⟩
    next => exact Bool.noConfusion hstream
  have hp : responseStreams req = true →
      encapHasBody (req.header.get encapName) = true ∧ req.method = respmodStr := by
    intro hstream
    unfold responseStreams at hstream
    split at hstream
    next es hes =>
      have hbody := hresp es hes
      rw [of_decide_eq_true hstream] at hbody
      rw [hb]
      by_contra hc
      rw [if_neg ?_] at hbody
      · exact BodyKind.noConfusion hbody
      · exact fun hand => hc ⟨hand.1, hand.2⟩
    next => exact Bool.noConfusion hstream
  refine ⟨?_, hq, hp⟩
  rintro ⟨h1, h2⟩
  have hm1 := (hq h1).2
  have hm2 := (hp h2).2
  rw [hm1] at hm2
  simp [reqmodStr, respmodStr] at hm2

/-- C3 amended witness: the section 4.8.2 RESPMOD request has a streaming
response body and a non-streaming request body. -/
theorem readRequest_at_most_one_stream_witness :
    (¬(requestStreams (reqOf s2Input.toList) = true ∧
       responseStreams (reqOf s2Input.toList) = true)) ∧
    (requestStreams (reqOf s2Input.toList) = true →
      encapHasBody ((reqOf s2Input.toList).header.get encapName) = true ∧
        (reqOf s2Input.toList).method = reqmodStr) ∧
    (responseStreams (reqOf s2Input.toList) = true →
      encapHasBody ((reqOf s2Input.toList).header.get encapName) = true ∧
        (reqOf s2Input.toList).method = respmodStr) :=
  readRequest_at_most_one_stream s2Input.toList (reqOf s2Input.toList)
    (restOf s2Input.toList) rfl
/-- Once the previous manifest key is a body marker, the loop rejects any
further entry. -/
theorem encapLoop_bodyMarker_rejects (x : List Char) (xs : List (List Char))
    (st : EncapState) (hpk : isBodyMarker st.prevKey = true) (res : EncapState) :
    encapLoop (x :: xs) st ≠ Except.ok res := by
  intro h
  unfold encapLoop at h
  split at h
  · exact Except.noConfusion h
  next =>
    split at h
    · exact Except.noConfusion h
    next =>
      rw [if_pos hpk] at h
      exact Except.noConfusion h

/-- A successful run of the manifest loop from a state whose previous key
is not a body marker implies the standalone well-formedness predicate. -/
theorem encapLoop_ok_itemsOK (items : List (List Char)) :
    ∀ st res : EncapState, isBodyMarker st.prevKey = false →
      encapLoop items st = Except.ok res → itemsOK items = true := by
  induction items with
  | nil => intro st res hpk h; rfl
  | cons item rest ih =>
    intro st res hpk h
    unfold encapLoop at h
    split at h
    · exact Except.noConfusion h
    next eq heq =>
      split at h
      · exact Except.noConfusion h
      next value hval =>
        rw [if_neg (by rw [hpk]; exact Bool.false_ne_true)] at h
        have hgoal : ∀ hv : validEncapKey (item.take eq) = true,
            (if isBodyMarker (item.take eq) = true then decide (rest = [])
             else itemsOK rest) = true →
            itemsOK (item :: rest) = true := by
          intro hv htail
          simp only [itemsOK, heq, hv, hval, Option.isSome_some, Bool.true_and,
            Bool.and_true]
          exact htail
        split at h
        next hk =>
          rcases hk with hk | hk | hk
          · refine hgoal (by rw [hk]; rfl) ?_
            rw [if_neg (by rw [hk]; simp [isBodyMarker, reqHdrKey, reqBodyKey, optBodyKey, resBodyKey, nullBodyKey])]
            exact ih _ _ (by rw [hk]; rfl) h
          · refine hgoal (by rw [hk]; rfl) ?_
            rw [if_neg (by rw [hk]; simp [isBodyMarker, resHdrKey, reqBodyKey, optBodyKey, resBodyKey, nullBodyKey])]
            exact ih _ _ (by rw [hk]; rfl) h
          · refine hgoal (by rw [hk]; rfl) ?_
            rw [if_pos (by rw [hk]; rfl)]
            cases rest with
            | nil => rfl
            | cons x xs =>
              exact absurd h (encapLoop_bodyMarker_rejects x xs _ (by rw [hk]; rfl) res)
        next =>
          split at h
          next hk =>
            have hbm : isBodyMarker (item.take eq) = true := by
              rcases hk with hk | hk | hk <;> (rw [hk]; rfl)
            have hv : validEncapKey (item.take eq) = true := by
              rcases hk with hk | hk | hk <;> (rw [hk]; rfl)
            refine hgoal hv ?_
            rw [if_pos hbm]
            cases rest with
            | nil => rfl
            | cons x xs =>
              exact absurd h (encapLoop_bodyMarker_rejects x xs _ (by
                show isBodyMarker (item.take eq) = true
                exact hbm) res)
          next => exact Except.noConfusion h

/-- C5: every request accepted by ReadRequest carries a non-empty
Encapsulated header whose manifest is well-formed: each entry is
key=value with a key among the six known ones and a decimal integer
value, and no entry follows a body marker.  Contrapositively, a missing
Encapsulated header, an unknown key, a non-integer value, or an entry
after a body marker always yields an error, never a request. -/
theorem readRequest_manifest_wellformed (input : List Char) (req : Request)
    (rest : List Char) (h : ReadRequest input = Except.ok (req, rest)) :
    req.header.get encapName ≠ [] ∧ manifestOK (req.header.get encapName) = true := by
  obtain ⟨info, hne, hparse, _, _⟩ := ReadRequest_inversion input req rest h
  refine ⟨hne, ?_⟩
  unfold manifestOK
  unfold parseEncapsulated at hparse
  refine encapLoop_ok_itemsOK _ _ _ ?_ hparse
  rfl

/-- C5 witness: the section 4.8.2 RESPMOD request is accepted and its
manifest is well-formed. -/
theorem readRequest_manifest_wellformed_witness :
    (reqOf s2Input.toList).header.get encapName ≠ [] ∧
    manifestOK ((reqOf s2Input.toList).header.get encapName) = true :=
  readRequest_manifest_wellformed s2Input.toList (reqOf s2Input.toList)
    (restOf s2Input.toList) rfl
/-- Looking up the key just set returns the new value. -/
theorem findEntry_setEntry (k v : List Char) (es : List (List Char × List (List Char))) :
    findEntry k (setEntry k v es) = some [v] := by
  induction es with
  | nil => simp [findEntry, setEntry]
  | cons e es ih =>
    by_cases he : e.1 = k
    · simp [findEntry, setEntry, he]
    · simp [findEntry, setEntry, he, ih]

/-- Setting one key leaves lookups of other keys unchanged. -/
theorem findEntry_setEntry_ne (k k' v : List Char)
    (es : List (List Char × List (List Char))) (hne : k' ≠ k) :
    findEntry k' (setEntry k v es) = findEntry k' es := by
  induction es with
  | nil => simp [findEntry, setEntry, Ne.symm hne]
  | cons e es ih =>
    by_cases he : e.1 = k
    · simp [findEntry, setEntry, he, Ne.symm hne, hne]
    · simp [findEntry, setEntry, he, ih]

/-- Header.get after Header.set of the same key. -/
theorem Header.get_set (h : Header) (k v : List Char) :
    (h.set k v).get k = v := by
  unfold Header.get Header.set
  rw [findEntry_setEntry]

/-- Header.get after Header.set of a key with a different canonical form. -/
theorem Header.get_set_ne (h : Header) (k k' v : List Char)
    (hne : canonicalKey k' ≠ canonicalKey k) :
    (h.set k v).get k' = h.get k' := by
  unfold Header.get Header.set
  rw [findEntry_setEntry_ne _ _ _ _ hne]

/-- Every call of WriteHeader leaves the wroteHeader latch set. -/
theorem writeHeader_sets_latch (w : RespWriter) (c : Int) (m : HttpMessage) (b : Bool) :
    ((writeHeader w c m b).1).wroteHeader = true := by
  by_cases h : w.wroteHeader = true
  · simp [writeHeader, h]
  · simp [writeHeader, h]

/-- WriteHeader on a writer whose latch is set returns everything
unchanged. -/
theorem writeHeader_of_latched (w : RespWriter) (c : Int) (m : HttpMessage) (b : Bool)
    (h : w.wroteHeader = true) : writeHeader w c m b = (w, m) := by
  simp [writeHeader, h]

/-- C6: commit is idempotent-on-first-call: after any WriteHeader call, a
second WriteHeader call emits no further bytes, changes no state of the
writer, and reports no error (the model is total; Go logs and returns). -/
theorem writeHeader_second_call_ignored (w : RespWriter) (c : Int) (m : HttpMessage)
    (b : Bool) (c2 : Int) (m2 : HttpMessage) (b2 : Bool) :
    writeHeader ((writeHeader w c m b).1) c2 m2 b2 = ((writeHeader w c m b).1, m2) :=
  writeHeader_of_latched _ c2 m2 b2 (writeHeader_sets_latch w c m b)

/-- C9: a WriteHeader call whose httpMessage is neither an embedded HTTP
request nor an embedded HTTP response behaves on the writer exactly as if
the message were absent: no embedded header block, the manifest computed
from hasBody and the request method alone, no error. -/
theorem writeHeader_other_type_as_absent (w : RespWriter) (c : Int) (b : Bool) :
    (writeHeader w c HttpMessage.otherMsg b).1 = (writeHeader w c HttpMessage.noMsg b).1 := by
  by_cases h : w.wroteHeader = true
  · simp [writeHeader, h]
  · simp [writeHeader, h]
/-- C7: Write on an uncommitted writer first commits with status 200, no
embedded HTTP message and hasBody true, then appends the bytes as one
chunk; Write on a writer committed without a body reports an error,
returns 0 and writes nothing. -/
theorem respWrite_semantics (w : RespWriter) (p : List Char) :
    (w.wroteHeader = false →
      respWrite w p =
        ({ (writeHeader w 200 HttpMessage.noMsg true).1 with
            out := (writeHeader w 200 HttpMessage.noMsg true).1.out ++ encodeChunk p },
         p.length, false)) ∧
    (w.wroteHeader = true → w.hasChunkWriter = false →
      respWrite w p = (w, 0, true)) := by
  constructor
  · intro hw
    have hcw : ((writeHeader w 200 HttpMessage.noMsg true).1).hasChunkWriter = true := by
      simp [writeHeader, hw]
    simp [respWrite, hw, hcw]
  · intro hw hcw
    simp [respWrite, hw, hcw]

/-- A fresh demonstration writer. -/
def wDemo : RespWriter :=
  { req := default, header := Header.emptyH, wroteHeader := false,
    hasChunkWriter := false, out := [], now := [] }

/-- A writer committed with hasBody false. -/
def wNoBodyDemo : RespWriter := (writeHeader wDemo 200 HttpMessage.noMsg false).1

/-- Demonstration payload. -/
def pDemo : List Char := ['a', 'b', 'c']

/-- C7 witness: both branches at concrete writers. -/
theorem respWrite_semantics_witness :
    respWrite wDemo pDemo =
      ({ (writeHeader wDemo 200 HttpMessage.noMsg true).1 with
          out := (writeHeader wDemo 200 HttpMessage.noMsg true).1.out ++ encodeChunk pDemo },
       pDemo.length, false) ∧
    respWrite wNoBodyDemo pDemo = (wNoBodyDemo, 0, true) :=
  ⟨(respWrite_semantics wDemo pDemo).1 rfl,
   (respWrite_semantics wNoBodyDemo pDemo).2 rfl rfl⟩

/-- C8: when WriteHeader commits with no embedded HTTP message, the
Encapsulated manifest is the lowercased three-byte prefix of the ICAP
request method followed by -body=0 when hasBody, and null-body=0
otherwise. -/
theorem writeHeader_default_manifest (w : RespWriter) (c : Int) (b : Bool)
    (hw : w.wroteHeader = false) :
    ((writeHeader w c HttpMessage.noMsg b).1).header.get encapName =
      (if b = true then lowerStr (w.req.method.take 3) ++ "-body=0".toList
       else "null-body=0".toList) := by
  have hm : (if w.req.method.length > 3 then w.req.method.take 3 else w.req.method)
      = w.req.method.take 3 := by
    split
    · rfl
    next hlen => exact (List.take_of_length_le (by omega)).symm
  simp only [writeHeader, hw]
  simp only [Bool.false_eq_true, if_false]
  rw [Header.get_set_ne _ _ _ _ (by decide)]
  rw [apply_ite (fun hh : Header => Header.get hh encapName)]
  rw [Header.get_set]
  rw [Header.get_set_ne _ _ _ _ (by decide)]
  rw [Header.get_set]
  rw [ite_self]
  simp [hm]

/-- C8 witness: a handler committing (200, none, false) on an OPTIONS
request yields Encapsulated: null-body=0. -/
def wOptDemo : RespWriter :=
  { req := { (default : Request) with
      method := ['O', 'P', 'T', 'I', 'O', 'N', 'S'] },
    header := Header.emptyH, wroteHeader := false, hasChunkWriter := false,
    out := [], now := [] }

/-- C8 witness theorem: the OPTIONS commit without body produces
null-body=0. -/
theorem writeHeader_default_manifest_witness :
    ((writeHeader wOptDemo 200 HttpMessage.noMsg false).1).header.get encapName =
      "null-body=0".toList :=
  writeHeader_default_manifest wOptDemo 200 false rfl
/-- C10: committing with an embedded HTTP request mutates the caller's
request: the serializer sets its Host header to the URL host, falling
back to the host field, and reconstructs a missing URL from the raw URL;
the writer returns the mutated request, so the changes remain visible to
the handler after commit. -/
theorem writeHeader_mutates_embedded_request (w : RespWriter) (c : Int) (b : Bool)
    (r : HttpRequest) (hdr : List Char) (r2 : HttpRequest)
    (hw : w.wroteHeader = false)
    (h : httpRequestHeader r = some (hdr, r2)) :
    (writeHeader w c (HttpMessage.reqMsg r) b).2 = HttpMessage.reqMsg r2 ∧
    ∃ u : URL, r2.url = some u ∧
      r2.header.get hostName = (if u.host = [] then r.host else u.host) ∧
      (r.url = some u ∨ (r.url = none ∧ parseRequestURL r.rawURL = some u)) := by
  refine ⟨by simp [writeHeader, hw, h], ?_⟩
  unfold httpRequestHeader at h
  split at h
  · exact Option.noConfusion h
  next u req1 hres =>
    simp only [Option.some.injEq, Prod.mk.injEq] at h
    obtain ⟨-, hr2⟩ := h
    subst hr2
    unfold resolveURL at hres
    split at hres
    next u0 hu0 =>
      simp only [Option.some.injEq, Prod.mk.injEq] at hres
      obtain ⟨huu, hr1⟩ := hres
      subst huu
      subst hr1
      exact ⟨u0, hu0, Header.get_set _ _ _, Or.inl hu0⟩
    next hu0 =>
      split at hres
      next u1 hu1 =>
        simp only [Option.some.injEq, Prod.mk.injEq] at hres
        obtain ⟨huu, hr1⟩ := hres
        subst huu
        subst hr1
        exact ⟨u1, rfl, Header.get_set _ _ _, Or.inr ⟨hu0, hu1⟩⟩
      next => exact Option.noConfusion hres

/-- A demonstration embedded request whose URL is missing. -/
def rDemo : HttpRequest :=
  { method := ['G', 'E', 'T'], rawURL := "/index.html".toList, url := none,
    proto := "HTTP/1.1".toList, header := Header.emptyH,
    host := "example.com".toList, body := BodyKind.empty }

/-- The header bytes httpRequestHeader serialises for rDemo. -/
def rDemoHdrBytes : List Char :=
  match httpRequestHeader rDemo with
  | some p => p.1
  | none => []

/-- The mutated request httpRequestHeader returns for rDemo. -/
def rDemoMutated : HttpRequest :=
  match httpRequestHeader rDemo with
  | some p => p.2
  | none => default

/-- C10 witness: committing rDemo through a fresh writer returns the
mutated request, whose URL was reconstructed from the raw URL and whose
Host header was set. -/
theorem writeHeader_mutates_embedded_request_witness :
    (writeHeader wDemo 200 (HttpMessage.reqMsg rDemo) true).2 =
      HttpMessage.reqMsg rDemoMutated ∧
    ∃ u : URL, rDemoMutated.url = some u ∧
      rDemoMutated.header.get hostName = (if u.host = [] then rDemo.host else u.host) ∧
      (rDemo.url = some u ∨ (rDemo.url = none ∧ parseRequestURL rDemo.rawURL = some u)) :=
  writeHeader_mutates_embedded_request wDemo 200 true rDemo rDemoHdrBytes
    rDemoMutated rfl rfl
